import Mathlib

/-!
# matester: the data-access layer `pkg/db/database.go`

A shallow embedding of `DatabaseImpl` over an explicit relational store.

* The store is the five tables the SQL text in `database.go` names, each a list
  of rows in insertion order.  A `SELECT` without `ORDER BY` returns rows in
  table order, `QueryRow(..).Scan` reads the first row of the result.
* A Go `error` is `Option String` (`none` is `nil`), a Go `*api.User` is
  `Option User` (`none` is `nil`), and a function that can panic returns an
  `Outcome`.
* Every operation takes the store and, when it writes, returns the store it
  leaves behind together with its Go results, so that a panic after a write
  keeps the write.
* The connection is taken to be healthy: `Prepare` and `Query` succeed, and a
  statement fails only when the store rejects it or when no row matches.
* The schema is not part of `database.go`; it is the one the specification
  lists.  The store enforces the two `UNIQUE` columns and generates the two
  surrogate keys; it does not enforce the foreign keys, so a link or credential
  row may reference an id that no users row carries.  Strings are compared for
  equality as they are.
-/

namespace Matester

/-! ## Go-side values -/

/-- A Go `error` value: `none` is `nil`, `some msg` is an error with text `msg`. -/
abbrev GoError := Option String

/-- Result of a Go call that either returns normally or panics. -/
inductive Outcome (α : Type) where
  | returned (v : α)
  | panicked (msg : String)
  deriving DecidableEq, Repr

/-- Modelled from the spec: `api.User` is declared in `matester/pkg/api`, which is
not among the sources.  The fields are the ones `database.go` reads and writes
(`Login`, `FirstName`, `LastName`, `BirthDate`, `Gender`, `City`, `Token`), all
taken as strings; the Go zero value is the empty string. -/
structure User where
  Login : String := ""
  FirstName : String := ""
  LastName : String := ""
  BirthDate : String := ""
  Gender : String := ""
  City : String := ""
  Token : String := ""
  deriving DecidableEq, Repr

/-- Modelled from the spec: `api.UserProfile` is declared in `matester/pkg/api`;
`GetUserProfile` fills its two fields `User` and `Hobbies`. -/
structure UserProfile where
  User : User
  Hobbies : List String
  deriving DecidableEq, Repr

/-! ## The relational store -/

/-- Modelled from the spec: a row of
`users(user_id PK, login UNIQUE, first_name, last_name, birth_date, gender, city)`. -/
structure UserRow where
  user_id : Int
  login : String
  first_name : String
  last_name : String
  birth_date : String
  gender : String
  city : String
  deriving DecidableEq, Repr

/-- Modelled from the spec: a row of `auth(user_id FK, token)`. -/
structure AuthRow where
  user_id : Int
  token : String
  deriving DecidableEq, Repr

/-- Modelled from the spec: a row of `hobbies(id PK, name UNIQUE)`. -/
structure HobbyRow where
  id : Int
  name : String
  deriving DecidableEq, Repr

/-- Modelled from the spec: a row of `user2hobbies(user_id FK, hobby_id FK)`. -/
structure User2HobbyRow where
  user_id : Int
  hobby_id : Int
  deriving DecidableEq, Repr

/-- Modelled from the spec: a row of `friends(fst FK, snd FK)`. -/
structure FriendRow where
  fst : Int
  snd : Int
  deriving DecidableEq, Repr

/-- The five tables behind `d.db`, each in insertion order. -/
structure Store where
  users : List UserRow
  auth : List AuthRow
  hobbies : List HobbyRow
  user2hobbies : List User2HobbyRow
  friends : List FriendRow
  deriving DecidableEq, Repr

/-- The store with no rows. -/
def Store.empty : Store := ⟨[], [], [], [], []⟩

/-! ## The SQL statements of `database.go` -/

/-- Modelled from the spec: the "generated" surrogate key of a new row, one more
than the largest key in the table (and at least 1), hence different from every
key already there. -/
def nextId (ids : List Int) : Int := ids.foldr max 0 + 1

/-- Text of the run-time panic raised by `users[0]` on an empty slice. -/
def indexPanic : String := "runtime error: index out of range [0] with length 0"

/-- Error text of `sql.ErrNoRows`. -/
def errNoRows : String := "sql: no rows in result set"

/-- The call `QueryRow(args).Scan(&x)` on a one-column result: the first row, or
`sql.ErrNoRows` when the result is empty. -/
def queryRowScan {α : Type} (rows : List α) : Except String α :=
  match rows with
  | [] => .error errNoRows
  | r :: _ => .ok r

/-- Modelled from the spec: `INSERT INTO users(login, first_name, last_name,
birth_date, gender, city) values (?, ?, ?, ?, ?, ?)`.  The store rejects a login
that is already present (`login UNIQUE`) and leaves the table as it was; otherwise
it appends the row under a generated `user_id`. -/
def execInsertUser (s : Store) (login first_name last_name birth_date gender city : String) :
    Store × GoError :=
  if login ∈ s.users.map (fun r => r.login) then
    (s, some "Error 1062: Duplicate entry for key login")
  else
    ({ s with users := s.users ++
        [⟨nextId (s.users.map (fun r => r.user_id)), login, first_name, last_name,
          birth_date, gender, city⟩] }, none)

/-- Modelled from the spec: `INSERT INTO auth(user_id, token) values (?, ?)`.  The
schema puts no key on `auth`, and referential integrity is left to the caller
("dangling references are possible"), so the row is always appended. -/
def execInsertAuth (s : Store) (user_id : Int) (token : String) : Store × GoError :=
  ({ s with auth := s.auth ++ [⟨user_id, token⟩] }, none)

/-- Modelled from the spec: `INSERT INTO hobbies(name) values (?)`.  The store
rejects a name that is already present (`name UNIQUE`); otherwise it appends the
row under a generated `id`. -/
def execInsertHobby (s : Store) (name : String) : Store × GoError :=
  if name ∈ s.hobbies.map (fun r => r.name) then
    (s, some "Error 1062: Duplicate entry for key name")
  else
    ({ s with hobbies := s.hobbies ++ [⟨nextId (s.hobbies.map (fun r => r.id)), name⟩] }, none)

/-- Modelled from the spec: `INSERT INTO user2hobbies(user_id, hobby_id) values (?, ?)`;
"no uniqueness enforced", the row is always appended. -/
def execInsertUser2Hobby (s : Store) (user_id hobby_id : Int) : Store × GoError :=
  ({ s with user2hobbies := s.user2hobbies ++ [⟨user_id, hobby_id⟩] }, none)

/-- Modelled from the spec: `INSERT INTO friends(fst, snd) values (?, ?)`; the
directed pair is always appended. -/
def execInsertFriend (s : Store) (fst snd : Int) : Store × GoError :=
  ({ s with friends := s.friends ++ [⟨fst, snd⟩] }, none)

/-- The query `SELECT user_id FROM users WHERE login = ?`. -/
def selectUserIdByLogin (s : Store) (login : String) : List Int :=
  (s.users.filter (fun r => r.login = login)).map (fun r => r.user_id)

/-- The query `SELECT id FROM hobbies WHERE name = ?`. -/
def selectHobbyIdByName (s : Store) (name : String) : List Int :=
  (s.hobbies.filter (fun r => r.name = name)).map (fun r => r.id)

/-- The query `SELECT token FROM auth WHERE user_id = ?`. -/
def selectTokenByUserId (s : Store) (user_id : Int) : List String :=
  (s.auth.filter (fun r => r.user_id = user_id)).map (fun r => r.token)

/-- The query `SELECT * FROM users where login = ?`. -/
def selectUsersByLogin (s : Store) (login : String) : List UserRow :=
  s.users.filter (fun r => r.login = login)

/-- The query `SELECT * FROM users`. -/
def selectAllUsers (s : Store) : List UserRow := s.users

/-- The derived table `fr` of `QueryFriendsList`:
`(SELECT DISTINCT fst FROM friends WHERE snd = ?) UNION (SELECT DISTINCT snd FROM friends WHERE fst = ?)`.
It has one column, named `fst` after the first `SELECT`, and `UNION` removes
duplicates across both halves. -/
def friendIds (s : Store) (userId : Int) : List Int :=
  (((s.friends.filter (fun f => f.snd = userId)).map (fun f => f.fst)).dedup ++
    ((s.friends.filter (fun f => f.fst = userId)).map (fun f => f.snd)).dedup).dedup

/-- The query `SELECT u.* FROM users AS u INNER JOIN (..) AS fr ON u.user_id = fr.fst`:
one output row for every pair of a `users` row and an `fr` row with equal ids,
listed in the order of the `users` table. -/
def selectFriends (s : Store) (userId : Int) : List UserRow :=
  s.users.flatMap (fun u => ((friendIds s userId).filter (fun i => u.user_id = i)).map (fun _ => u))

/-- The query `SELECT h.* FROM hobbies as h INNER JOIN (SELECT hobby_id FROM
user2hobbies WHERE user_id = ?) AS u ON h.id = u.hobby_id`: one output row for
every pair of a `hobbies` row and a link row of the user with that hobby id,
listed in the order of the `hobbies` table. -/
def selectHobbiesOfUser (s : Store) (userId : Int) : List HobbyRow :=
  s.hobbies.flatMap (fun h =>
    (((s.user2hobbies.filter (fun l => l.user_id = userId)).map (fun l => l.hobby_id)).filter
      (fun i => h.id = i)).map (fun _ => h))

/-! ## The methods of `DatabaseImpl` -/

/-- The body of the loop of `rowsToUsers`: `rows.Scan` fills a fresh `api.User`
from the columns of a row; the id column goes to a local that is dropped and
`Token` keeps its zero value. -/
def scanUser (r : UserRow) : User :=
  { Login := r.login, FirstName := r.first_name, LastName := r.last_name,
    BirthDate := r.birth_date, Gender := r.gender, City := r.city }

/-- The method `rowsToUsers`: the scanned rows, in order.  All columns hold
strings or an integer id, so `rows.Scan` does not fail and no row is skipped. -/
def rowsToUsers (rows : List UserRow) : List User :=
  rows.map scanUser

/-- The method `GetUserId`: the first `user_id` for the login, or `-1` and the
error "no such user" when `Scan` fails. -/
def GetUserId (s : Store) (name : String) : Int × GoError :=
  match queryRowScan (selectUserIdByLogin s name) with
  | .error _ => (-1, some "no such user")
  | .ok id => (id, none)

/-- The method `GetHobbyId`: the first `id` for the hobby name, or `-1` and the
error "no such hobby" when `Scan` fails. -/
def GetHobbyId (s : Store) (name : String) : Int × GoError :=
  match queryRowScan (selectHobbyIdByName s name) with
  | .error _ => (-1, some "no such hobby")
  | .ok id => (id, none)

/-- The method `AuthorisedUser`: returns the error of `GetUserId` if there is one;
otherwise scans the token and panics with the scan error if that fails. -/
def AuthorisedUser (s : Store) (login : String) : Outcome (Option User × GoError) :=
  match GetUserId s login with
  | (_, some err) => .returned (none, some err)
  | (userId, none) =>
    match queryRowScan (selectTokenByUserId s userId) with
    | .error err => .panicked err
    | .ok token => .returned (some { Login := login, Token := token }, none)

/-- The method `SaveUser`: inserts the users row (a failure is only printed), then
resolves the id of the login and inserts the auth row; it panics if the id cannot
be resolved or the auth insert fails. -/
def SaveUser (s : Store) (user : User) : Store × Outcome Unit :=
  let (s1, _) := execInsertUser s user.Login user.FirstName user.LastName user.BirthDate
    user.Gender user.City
  match GetUserId s1 user.Login with
  | (_, some err) => (s1, .panicked err)
  | (userId, none) =>
    match execInsertAuth s1 userId user.Token with
    | (s2, some err) => (s2, .panicked err)
    | (s2, none) => (s2, .returned ())

/-- The method `addHobby`: one insert into `hobbies`, its error returned. -/
def addHobby (s : Store) (hobby : String) : Store × GoError :=
  execInsertHobby s hobby

/-- The method `SaveHobby`: resolves the hobby id, creating the hobby and resolving
again when the first lookup fails, then inserts the link row. -/
def SaveHobby (s : Store) (hobby : String) (userId : Int) : Store × GoError :=
  match GetHobbyId s hobby with
  | (hobbyId, none) => execInsertUser2Hobby s userId hobbyId
  | (_, some _) =>
    match addHobby s hobby with
    | (s1, some err) => (s1, some err)
    | (s1, none) => execInsertUser2Hobby s1 userId (GetHobbyId s1 hobby).1

/-- The method `SaveFriend`: one insert into `friends`, its error returned. -/
def SaveFriend (s : Store) (userId friendId : Int) : Store × GoError :=
  execInsertFriend s userId friendId

/-- The method `QueryUsersList`. -/
def QueryUsersList (s : Store) : List User :=
  rowsToUsers (selectAllUsers s)

/-- The method `QueryFriendsList`. -/
def QueryFriendsList (s : Store) (userId : Int) : List User :=
  rowsToUsers (selectFriends s userId)

/-- The method `GetUser`: `&users[0]` of the converted rows; indexing an empty
slice is a run-time panic. -/
def GetUser (s : Store) (name : String) : Outcome (Option User × GoError) :=
  match rowsToUsers (selectUsersByLogin s name) with
  | [] => .panicked indexPanic
  | u :: _ => .returned (some u, none)

/-- The method `queryHobbies`: the names of the joined hobby rows. -/
def queryHobbies (s : Store) (userId : Int) : List String :=
  (selectHobbiesOfUser s userId).map (fun h => h.name)

/-- The method `GetUserProfile`: composes `GetUserId`, `GetUser` and `queryHobbies`;
a panic of `GetUser` propagates. -/
def GetUserProfile (s : Store) (name : String) : Outcome (Option UserProfile × GoError) :=
  match GetUserId s name with
  | (_, some err) => .returned (none, some err)
  | (userId, none) =>
    match GetUser s name with
    | .panicked msg => .panicked msg
    | .returned (_, some err) => .returned (none, some err)
    | .returned (none, none) => .panicked "runtime error: invalid memory address or nil pointer dereference"
    | .returned (some user, none) =>
      .returned (some { User := user, Hobbies := queryHobbies s userId }, none)

/-- The users row that `INSERT INTO users` writes for `user` into store `s`. -/
def newUserRow (s : Store) (user : User) : UserRow :=
  ⟨nextId (s.users.map (fun r => r.user_id)), user.Login, user.FirstName, user.LastName,
    user.BirthDate, user.Gender, user.City⟩

/-! ## Calls and reachable stores -/

/-- A call of one of the methods of the `Database` interface that touch the
tables, with its arguments. -/
inductive Op where
  | saveUser (user : User)
  | saveHobby (hobby : String) (userId : Int)
  | saveFriend (userId friendId : Int)
  | authorisedUser (login : String)
  | getUserId (name : String)
  | getHobbyId (name : String)
  | getUser (name : String)
  | getUserProfile (name : String)
  | queryUsersList
  | queryFriendsList (userId : Int)
  deriving DecidableEq, Repr

/-- The read methods: those whose SQL is `SELECT` only. -/
def Op.isRead : Op → Bool
  | .saveUser _ => false
  | .saveHobby _ _ => false
  | .saveFriend _ _ => false
  | _ => true

/-- The store a call leaves behind.  The three `Save` methods leave the store
their statements produced (also when the method ends in an error or a panic); the
other methods only run `SELECT` statements, which return rows and write nothing. -/
def Op.run (s : Store) : Op → Store
  | .saveUser user => (SaveUser s user).1
  | .saveHobby hobby userId => (SaveHobby s hobby userId).1
  | .saveFriend userId friendId => (SaveFriend s userId friendId).1
  | _ => s

/-- The stores reachable from the empty store by calls of the methods. -/
inductive Reachable : Store → Prop where
  | empty : Reachable Store.empty
  | step (s : Store) (op : Op) : Reachable s → Reachable (op.run s)

/-- The store after a list of calls, first call first. -/
def runAll (s : Store) (ops : List Op) : Store := ops.foldl Op.run s

/-- A user record for the login "alice" with the token "tok1". -/
def alice : User := { Login := "alice", FirstName := "Alice", Token := "tok1" }

/-- A second signup under the login "alice", with another token. -/
def alice2 : User := { Login := "alice", FirstName := "Alicia", Token := "tok9" }

/-- A user record for the login "bob" with the token "tok2". -/
def bob : User := { Login := "bob", FirstName := "Bob", Token := "tok2" }

/-- A store with two users and their credentials, as two `SaveUser` calls on the
empty store leave it. -/
def twoUsers : Store :=
  { users := [⟨1, "alice", "Alice", "A", "2000-01-01", "f", "Paris"⟩,
              ⟨2, "bob", "Bob", "B", "1999-12-31", "m", "Rome"⟩],
    auth := [⟨1, "tok1"⟩, ⟨2, "tok2"⟩],
    hobbies := [], user2hobbies := [], friends := [] }

/-- A store whose only user has no row in `auth`. -/
def orphanUser : Store :=
  { users := [⟨1, "alice", "Alice", "A", "2000-01-01", "f", "Paris"⟩],
    auth := [], hobbies := [], user2hobbies := [], friends := [] }

/-- The Go value `carol`, a user record with every field set. -/
def carol : User :=
  { Login := "carol", FirstName := "Carol", LastName := "C", BirthDate := "2001-02-03",
    Gender := "f", City := "Oslo", Token := "tok3" }

/-- A store with one user and no hobby. -/
def oneUser : Store :=
  { users := [⟨1, "alice", "Alice", "A", "2000-01-01", "f", "Paris"⟩],
    auth := [⟨1, "tok1"⟩], hobbies := [], user2hobbies := [], friends := [] }

/-- The store after alice and bob signed up on the empty store. -/
def aliceAndBob : Store := runAll Store.empty [.saveUser alice, .saveUser bob]

/-- A store with three users whose friends table holds a pair in both directions,
a repeated row, and a row pointing at a missing user. -/
def tangled : Store :=
  { users := [⟨1, "alice", "Alice", "A", "2000-01-01", "f", "Paris"⟩,
              ⟨2, "bob", "Bob", "B", "1999-12-31", "m", "Rome"⟩,
              ⟨3, "carol", "Carol", "C", "2001-02-03", "f", "Oslo"⟩],
    auth := [⟨1, "tok1"⟩, ⟨2, "tok2"⟩, ⟨3, "tok3"⟩],
    hobbies := [], user2hobbies := [],
    friends := [⟨1, 2⟩, ⟨2, 1⟩, ⟨1, 2⟩, ⟨3, 1⟩, ⟨1, 3⟩, ⟨7, 1⟩, ⟨2, 3⟩] }

/-! ## Basic facts about the statements -/

theorem le_foldr_max (ids : List Int) (i : Int) (h : i ∈ ids) : i ≤ ids.foldr max 0 := by
  induction ids with
  | nil => cases h
  | cons a tl ih =>
    rcases List.mem_cons.mp h with h | h
    · subst h
      exact le_max_left _ _
    · exact le_trans (ih h) (le_max_right _ _)

theorem nextId_not_mem (ids : List Int) : nextId ids ∉ ids := by
  intro h
  have := le_foldr_max ids _ h
  unfold nextId at this
  omega

theorem selectUserIdByLogin_absent (s : Store) (L : String)
    (h : ∀ r ∈ s.users, r.login ≠ L) : selectUserIdByLogin s L = [] := by
  unfold selectUserIdByLogin
  rw [List.map_eq_nil_iff, List.filter_eq_nil_iff]
  intro r hr
  simpa using h r hr

theorem GetUserId_absent (s : Store) (L : String)
    (h : ∀ r ∈ s.users, r.login ≠ L) : GetUserId s L = (-1, some "no such user") := by
  unfold GetUserId
  rw [selectUserIdByLogin_absent s L h]
  rfl

theorem queryRowScan_first_login (l : List UserRow) (L : String)
    (h : ∃ r ∈ l, r.login = L) :
    ∃ r ∈ l, r.login = L ∧ l.find? (fun r => r.login = L) = some r ∧
      queryRowScan ((l.filter (fun r => r.login = L)).map (fun r => r.user_id))
        = .ok r.user_id := by
  induction l with
  | nil =>
    obtain ⟨r0, hr0, _⟩ := h
    cases hr0
  | cons a tl ih =>
    by_cases ha : a.login = L
    · exact ⟨a, List.mem_cons_self _ _, ha, by simp [ha], by simp [ha, queryRowScan]⟩
    · obtain ⟨r0, hr0, hL⟩ := h
      rcases List.mem_cons.mp hr0 with h | h
      · exact absurd (h ▸ hL) ha
      · obtain ⟨r, hr, hrL, hfind, hget⟩ := ih ⟨r0, h, hL⟩
        refine ⟨r, List.mem_cons_of_mem _ hr, hrL, by simp [ha, hfind], ?_⟩
        simpa [ha] using hget

theorem GetUserId_present (s : Store) (L : String) (h : ∃ r ∈ s.users, r.login = L) :
    ∃ r ∈ s.users, r.login = L ∧ s.users.find? (fun r => r.login = L) = some r ∧
      GetUserId s L = (r.user_id, none) := by
  obtain ⟨r, hr, hrL, hfind, hget⟩ := queryRowScan_first_login s.users L h
  refine ⟨r, hr, hrL, hfind, ?_⟩
  unfold GetUserId selectUserIdByLogin
  rw [hget]

theorem filter_login_absent (l : List UserRow) (L : String)
    (h : L ∉ l.map (fun r => r.login)) : l.filter (fun r => r.login = L) = [] := by
  rw [List.filter_eq_nil_iff]
  intro r hr
  have : r.login ≠ L := fun e => h (e ▸ List.mem_map_of_mem _ hr)
  simpa using this

theorem SaveUser_fresh (s : Store) (U : User) (habs : U.Login ∉ s.users.map (fun r => r.login)) :
    SaveUser s U =
      ({ s with users := s.users ++ [newUserRow s U],
                auth := s.auth ++ [⟨(newUserRow s U).user_id, U.Token⟩] }, .returned ()) := by
  have hf := filter_login_absent s.users U.Login habs
  simp [SaveUser, execInsertUser, habs, GetUserId, selectUserIdByLogin, List.filter_append, hf,
    queryRowScan, execInsertAuth, newUserRow]

theorem SaveUser_existing (s : Store) (U : User) (hin : U.Login ∈ s.users.map (fun r => r.login)) :
    ∃ r ∈ s.users, r.login = U.Login ∧
      SaveUser s U = ({ s with auth := s.auth ++ [⟨r.user_id, U.Token⟩] }, .returned ()) := by
  obtain ⟨r0, hr0, hL0⟩ := List.mem_map.mp hin
  obtain ⟨r, hr, hrL, _, hget⟩ := GetUserId_present s U.Login ⟨r0, hr0, hL0⟩
  refine ⟨r, hr, hrL, ?_⟩
  simp [SaveUser, execInsertUser, hin, hget, execInsertAuth]

/-! ## Lookups -/

/-- C8: `GetUserId` returns `-1` and an error when no users row has the login;
when some row has it, it returns the `user_id` of such a row and no error, and
this is the id of the row with that login whenever that row is the only one. -/
theorem GetUserId_spec (s : Store) (L : String) :
    ((∀ r ∈ s.users, r.login ≠ L) → GetUserId s L = (-1, some "no such user")) ∧
    ((∃ r ∈ s.users, r.login = L) →
      ∃ r ∈ s.users, r.login = L ∧ GetUserId s L = (r.user_id, none)) ∧
    (∀ r ∈ s.users, r.login = L → (∀ r' ∈ s.users, r'.login = L → r' = r) →
      GetUserId s L = (r.user_id, none)) := by
  refine ⟨GetUserId_absent s L, ?_, ?_⟩
  · intro h
    obtain ⟨r, hr, hrL, _, hget⟩ := GetUserId_present s L h
    exact ⟨r, hr, hrL, hget⟩
  · intro r hr hrL huniq
    obtain ⟨r', hr', hrL', _, hget⟩ := GetUserId_present s L ⟨r, hr, hrL⟩
    rw [hget, huniq r' hr' hrL']

/-- C8, at the store `twoUsers`: the login "dave" resolves to `-1` with an error,
the login "bob" to the id 2 of its row. -/
theorem GetUserId_spec_witness :
    GetUserId twoUsers "dave" = (-1, some "no such user") ∧
    GetUserId twoUsers "bob" = (2, none) :=
  ⟨(GetUserId_spec twoUsers "dave").1 (by decide),
   (GetUserId_spec twoUsers "bob").2.2 ⟨2, "bob", "Bob", "B", "1999-12-31", "m", "Rome"⟩
     (by decide) rfl (by decide)⟩

/-- C1: for a login that matches no users row, `GetUser` does not return an error:
the converted row list is empty and `users[0]` panics with an index fault. -/
theorem GetUser_absent_panics (s : Store) (L : String) (h : ∀ r ∈ s.users, r.login ≠ L) :
    GetUser s L = .panicked indexPanic := by
  have hf : s.users.filter (fun r => r.login = L) = [] := by
    rw [List.filter_eq_nil_iff]
    intro r hr
    simpa using h r hr
  simp [GetUser, selectUsersByLogin, hf, rowsToUsers]

/-- C1, at the store `twoUsers` and the login "dave": `GetUser` panics where
`GetUserId` returns the error "no such user". -/
theorem GetUser_absent_panics_witness :
    (∀ r ∈ twoUsers.users, r.login ≠ "dave") ∧
    GetUser twoUsers "dave" = .panicked indexPanic ∧
    GetUserId twoUsers "dave" = (-1, some "no such user") :=
  ⟨by decide, GetUser_absent_panics twoUsers "dave" (by decide), by decide⟩

/-! ## Authentication -/

/-- Extent of the lookup misses of `AuthorisedUser`: a login with no users row
gives no user and the error "no such user"; a login with a users row whose id no
auth row carries makes the token scan fail, and the method panics. -/
theorem AuthorisedUser_missing (s : Store) (L : String) :
    ((∀ r ∈ s.users, r.login ≠ L) →
      AuthorisedUser s L = .returned (none, some "no such user")) ∧
    ((∃ r ∈ s.users, r.login = L) →
      (∀ r ∈ s.users, r.login = L → ∀ a ∈ s.auth, a.user_id ≠ r.user_id) →
      AuthorisedUser s L = .panicked errNoRows) := by
  constructor
  · intro h
    simp [AuthorisedUser, GetUserId_absent s L h]
  · intro hex hno
    obtain ⟨r, hr, hrL, _, hget⟩ := GetUserId_present s L hex
    have hf : s.auth.filter (fun a => a.user_id = r.user_id) = [] := by
      rw [List.filter_eq_nil_iff]
      intro a ha
      simpa using hno r hr hrL a ha
    simp [AuthorisedUser, hget, selectTokenByUserId, hf, queryRowScan]

/-- C3: the code breaks the claim.  In the store `orphanUser` the login "alice"
has a users row and no auth row has its id; `AuthorisedUser` should return an
error and no user, but the failed token scan panics with `sql.ErrNoRows` and the
method returns nothing. -/
theorem AuthorisedUser_orphan_panics :
    (∃ r ∈ orphanUser.users, r.login = "alice" ∧ ∀ a ∈ orphanUser.auth, a.user_id ≠ r.user_id) ∧
    AuthorisedUser orphanUser "alice" = .panicked errNoRows ∧
    ¬ ∃ res, AuthorisedUser orphanUser "alice" = .returned res := by
  refine ⟨by decide, by decide, ?_⟩
  rintro ⟨res, h⟩
  have h2 : AuthorisedUser orphanUser "alice" = .panicked errNoRows := by decide
  rw [h2] at h
  cases h

/-- C2: when the login of `U` is absent and every auth row references an existing
user, `SaveUser` returns normally and `AuthorisedUser` on the store it leaves
returns, without error, the user with login `U.Login` and token `U.Token`. -/
theorem AuthorisedUser_after_SaveUser (s : Store) (U : User)
    (habs : U.Login ∉ s.users.map (fun r => r.login))
    (hauth : ∀ a ∈ s.auth, a.user_id ∈ s.users.map (fun r => r.user_id)) :
    (SaveUser s U).2 = .returned () ∧
    AuthorisedUser (SaveUser s U).1 U.Login
      = .returned (some { Login := U.Login, Token := U.Token }, none) := by
  rw [SaveUser_fresh s U habs]
  refine ⟨rfl, ?_⟩
  have hf := filter_login_absent s.users U.Login habs
  have hfa : s.auth.filter (fun a => a.user_id = nextId (s.users.map (fun r => r.user_id))) = [] := by
    rw [List.filter_eq_nil_iff]
    intro a ha
    have : a.user_id ≠ nextId (s.users.map (fun r => r.user_id)) :=
      fun e => nextId_not_mem _ (e ▸ hauth a ha)
    simpa using this
  simp [AuthorisedUser, GetUserId, selectUserIdByLogin, List.filter_append, hf, queryRowScan,
    newUserRow, selectTokenByUserId, hfa]

/-- C2, at the store `twoUsers` and the new user `carol`. -/
theorem AuthorisedUser_after_SaveUser_witness :
    (SaveUser twoUsers carol).2 = .returned () ∧
    AuthorisedUser (SaveUser twoUsers carol).1 "carol"
      = .returned (some { Login := "carol", Token := "tok3" }, none) :=
  AuthorisedUser_after_SaveUser twoUsers carol (by decide) (by decide)

/-! ## Profiles -/

/-- C7: when the login of `U` is absent and every user2hobbies row references an
existing user, `SaveUser` followed by `GetUserProfile` returns, without error, a
profile whose user has the login and profile fields of `U` (the token is not read
back) and whose hobby list is empty. -/
theorem GetUserProfile_after_SaveUser (s : Store) (U : User)
    (habs : U.Login ∉ s.users.map (fun r => r.login))
    (hlinks : ∀ l ∈ s.user2hobbies, l.user_id ∈ s.users.map (fun r => r.user_id)) :
    (SaveUser s U).2 = .returned () ∧
    GetUserProfile (SaveUser s U).1 U.Login
      = .returned (some { User := { U with Token := "" }, Hobbies := [] }, none) := by
  rw [SaveUser_fresh s U habs]
  refine ⟨rfl, ?_⟩
  have hf := filter_login_absent s.users U.Login habs
  have hfl : s.user2hobbies.filter
      (fun l => l.user_id = nextId (s.users.map (fun r => r.user_id))) = [] := by
    rw [List.filter_eq_nil_iff]
    intro l hl
    have : l.user_id ≠ nextId (s.users.map (fun r => r.user_id)) :=
      fun e => nextId_not_mem _ (e ▸ hlinks l hl)
    simpa using this
  simp [GetUserProfile, GetUserId, GetUser, selectUsersByLogin, selectUserIdByLogin,
    List.filter_append, hf, queryRowScan, newUserRow, rowsToUsers, scanUser, queryHobbies,
    selectHobbiesOfUser, hfl]

/-- C7, at the store `twoUsers` and the new user `carol`. -/
theorem GetUserProfile_after_SaveUser_witness :
    (SaveUser twoUsers carol).2 = .returned () ∧
    GetUserProfile (SaveUser twoUsers carol).1 "carol"
      = .returned (some { User := { carol with Token := "" }, Hobbies := [] }, none) :=
  GetUserProfile_after_SaveUser twoUsers carol (by decide) (by decide)

/-! ## Hobbies -/

theorem queryRowScan_find {α β : Type} (p : α → Bool) (f : α → β) (l : List α) (r : α)
    (h : l.find? p = some r) : queryRowScan ((l.filter p).map f) = .ok (f r) := by
  induction l with
  | nil => simp at h
  | cons a tl ih =>
    by_cases ha : p a = true
    · simp [List.find?, ha] at h
      subst h
      simp [ha, queryRowScan]
    · simp [List.find?, ha] at h
      simpa [ha] using ih h

theorem GetHobbyId_find (s : Store) (h : String) (r : HobbyRow)
    (hf : s.hobbies.find? (fun r => r.name = h) = some r) : GetHobbyId s h = (r.id, none) := by
  unfold GetHobbyId selectHobbyIdByName
  rw [queryRowScan_find _ _ _ r hf]

theorem filter_name_absent (l : List HobbyRow) (h : String)
    (habs : h ∉ l.map (fun r => r.name)) : l.filter (fun r => r.name = h) = [] := by
  rw [List.filter_eq_nil_iff]
  intro r hr
  have : r.name ≠ h := fun e => habs (e ▸ List.mem_map_of_mem _ hr)
  simpa using this

theorem SaveHobby_known (s : Store) (h : String) (userId : Int) (r : HobbyRow)
    (hf : s.hobbies.find? (fun r => r.name = h) = some r) :
    SaveHobby s h userId
      = ({ s with user2hobbies := s.user2hobbies ++ [⟨userId, r.id⟩] }, none) := by
  simp [SaveHobby, GetHobbyId_find s h r hf, execInsertUser2Hobby]

theorem SaveHobby_new (s : Store) (h : String) (userId : Int)
    (habs : h ∉ s.hobbies.map (fun r => r.name)) :
    SaveHobby s h userId
      = ({ s with hobbies := s.hobbies ++ [⟨nextId (s.hobbies.map (fun r => r.id)), h⟩],
                  user2hobbies := s.user2hobbies ++
                    [⟨userId, nextId (s.hobbies.map (fun r => r.id))⟩] }, none) := by
  have hf := filter_name_absent s.hobbies h habs
  simp [SaveHobby, GetHobbyId, selectHobbyIdByName, hf, queryRowScan, addHobby, execInsertHobby,
    habs, List.filter_append, execInsertUser2Hobby]

/-- C5: when at most one hobbies row is named `h`, two successive calls
`SaveHobby(h, id)` both return no error, the second leaves `hobbies` as the first
left it, `hobbies` then holds exactly one row named `h`, and `user2hobbies` has
gained two rows `(id, hobbyId)` where `hobbyId` is the id of that row. -/
theorem SaveHobby_twice (s : Store) (h : String) (id : Int)
    (hone : (s.hobbies.filter (fun r => r.name = h)).length ≤ 1) :
    (SaveHobby s h id).2 = none ∧
    (SaveHobby (SaveHobby s h id).1 h id).2 = none ∧
    (SaveHobby (SaveHobby s h id).1 h id).1.hobbies = (SaveHobby s h id).1.hobbies ∧
    ((SaveHobby (SaveHobby s h id).1 h id).1.hobbies.filter (fun r => r.name = h)).length = 1 ∧
    ∃ r ∈ (SaveHobby (SaveHobby s h id).1 h id).1.hobbies, r.name = h ∧
      (SaveHobby (SaveHobby s h id).1 h id).1.user2hobbies
        = s.user2hobbies ++ [⟨id, r.id⟩, ⟨id, r.id⟩] := by
  by_cases hin : h ∈ s.hobbies.map (fun r => r.name)
  · obtain ⟨r0, hr0, hn0⟩ := List.mem_map.mp hin
    have hsome : (s.hobbies.find? (fun r => r.name = h)).isSome := by
      rw [List.find?_isSome]
      exact ⟨r0, hr0, by simpa using hn0⟩
    obtain ⟨r, hr⟩ := Option.isSome_iff_exists.mp hsome
    have hmem : r ∈ s.hobbies := List.mem_of_find?_eq_some hr
    have hname : r.name = h := by simpa using List.find?_some hr
    have hlen : (s.hobbies.filter (fun r => r.name = h)).length = 1 := by
      have hpos : 0 < (s.hobbies.filter (fun r => r.name = h)).length :=
        List.length_pos_of_mem (List.mem_filter.mpr ⟨hmem, by simpa using hname⟩)
      omega
    have h1 := SaveHobby_known s h id r hr
    have h2 := SaveHobby_known { s with user2hobbies := s.user2hobbies ++ [⟨id, r.id⟩] } h id r hr
    rw [h1]
    dsimp only
    rw [h2]
    exact ⟨rfl, rfl, rfl, hlen, r, hmem, hname, by simp⟩
  · have hf := filter_name_absent s.hobbies h hin
    rw [SaveHobby_new s h id hin]
    have hfind : (s.hobbies ++ [(⟨nextId (s.hobbies.map (fun r => r.id)), h⟩ : HobbyRow)]).find?
        (fun r => r.name = h) = some ⟨nextId (s.hobbies.map (fun r => r.id)), h⟩ := by
      have hnone : s.hobbies.find? (fun r => r.name = h) = none := by
        rw [List.find?_eq_none]
        intro r hr
        have : r.name ≠ h := fun e => hin (e ▸ List.mem_map_of_mem _ hr)
        simpa using this
      simp [List.find?_append, hnone]
    have h2 := SaveHobby_known
      { s with hobbies := s.hobbies ++ [⟨nextId (s.hobbies.map (fun r => r.id)), h⟩],
               user2hobbies := s.user2hobbies ++
                 [⟨id, nextId (s.hobbies.map (fun r => r.id))⟩] } h id _ hfind
    dsimp only
    rw [h2]
    refine ⟨rfl, rfl, rfl, by simp [List.filter_append, hf],
      ⟨nextId (s.hobbies.map (fun r => r.id)), h⟩, by simp, rfl, by simp⟩

/-- C5, at the store `oneUser`, where no hobby is named "chess": after two calls
there is one hobbies row and two equal link rows. -/
theorem SaveHobby_twice_witness :
    (SaveHobby (SaveHobby oneUser "chess" 1).1 "chess" 1).1.hobbies = [⟨1, "chess"⟩] ∧
    (SaveHobby (SaveHobby oneUser "chess" 1).1 "chess" 1).1.user2hobbies = [⟨1, 1⟩, ⟨1, 1⟩] ∧
    ((SaveHobby (SaveHobby oneUser "chess" 1).1 "chess" 1).1.hobbies.filter
      (fun r => r.name = "chess")).length = 1 :=
  ⟨by decide, by decide, (SaveHobby_twice oneUser "chess" 1 (by decide)).2.2.2.1⟩

/-! ## Credentials of a repeated signup -/

theorem reachable_runAll (s : Store) (ops : List Op) (h : Reachable s) :
    Reachable (runAll s ops) := by
  induction ops generalizing s with
  | nil => exact h
  | cons op tl ih => exact ih (op.run s) (Reachable.step s op h)

/-- C6 fails on the code: calling `SaveUser` twice with the login "alice" on the
empty store leaves one users row (the second insert is rejected and only printed)
and two auth rows with the same `user_id`; that store is reachable. -/
theorem SaveUser_twice_two_credentials :
    (runAll Store.empty [.saveUser alice, .saveUser alice2]).users
      = [⟨1, "alice", "Alice", "", "", "", ""⟩] ∧
    (runAll Store.empty [.saveUser alice, .saveUser alice2]).auth
      = [⟨1, "tok1"⟩, ⟨1, "tok9"⟩] ∧
    (SaveUser (SaveUser Store.empty alice).1 alice2).2 = .returned () ∧
    Reachable (runAll Store.empty [.saveUser alice, .saveUser alice2]) ∧
    ¬ ((runAll Store.empty [.saveUser alice, .saveUser alice2]).auth.map
        (fun a => a.user_id)).Nodup :=
  ⟨by decide, by decide, by decide, reachable_runAll _ _ Reachable.empty, by decide⟩

/-! ## Insert-only -/

/-- C10: every call leaves each of the five tables as it was with rows appended
at most; a read call leaves the store unchanged; `SaveFriend(a, b)` appends the one
row `(a, b)` to `friends` and changes nothing else. -/
theorem insert_only (s : Store) (op : Op) :
    ((∃ n, (op.run s).users = s.users ++ n) ∧ (∃ n, (op.run s).auth = s.auth ++ n) ∧
      (∃ n, (op.run s).hobbies = s.hobbies ++ n) ∧
      (∃ n, (op.run s).user2hobbies = s.user2hobbies ++ n) ∧
      (∃ n, (op.run s).friends = s.friends ++ n)) ∧
    (op.isRead = true → op.run s = s) ∧
    (∀ a b, op = .saveFriend a b →
      (SaveFriend s a b).2 = none ∧ op.run s = { s with friends := s.friends ++ [⟨a, b⟩] }) := by
  have hid : ∀ s : Store, (∃ n, s.users = s.users ++ n) ∧ (∃ n, s.auth = s.auth ++ n) ∧
      (∃ n, s.hobbies = s.hobbies ++ n) ∧ (∃ n, s.user2hobbies = s.user2hobbies ++ n) ∧
      (∃ n, s.friends = s.friends ++ n) :=
    fun s => ⟨⟨[], by simp⟩, ⟨[], by simp⟩, ⟨[], by simp⟩, ⟨[], by simp⟩, ⟨[], by simp⟩⟩
  cases op with
  | saveUser user =>
    refine ⟨?_, by simp [Op.isRead], by simp⟩
    by_cases hin : user.Login ∈ s.users.map (fun r => r.login)
    · obtain ⟨r, _, _, hsave⟩ := SaveUser_existing s user hin
      simp only [Op.run, hsave]
      exact ⟨⟨[], by simp⟩, ⟨_, rfl⟩, ⟨[], by simp⟩, ⟨[], by simp⟩, ⟨[], by simp⟩⟩
    · simp only [Op.run, SaveUser_fresh s user hin]
      exact ⟨⟨_, rfl⟩, ⟨_, rfl⟩, ⟨[], by simp⟩, ⟨[], by simp⟩, ⟨[], by simp⟩⟩
  | saveHobby hobby userId =>
    refine ⟨?_, by simp [Op.isRead], by simp⟩
    by_cases hin : hobby ∈ s.hobbies.map (fun r => r.name)
    · obtain ⟨r0, hr0, hn0⟩ := List.mem_map.mp hin
      have hsome : (s.hobbies.find? (fun r => r.name = hobby)).isSome := by
        rw [List.find?_isSome]
        exact ⟨r0, hr0, by simpa using hn0⟩
      obtain ⟨r, hr⟩ := Option.isSome_iff_exists.mp hsome
      simp only [Op.run, SaveHobby_known s hobby userId r hr]
      exact ⟨⟨[], by simp⟩, ⟨[], by simp⟩, ⟨[], by simp⟩, ⟨_, rfl⟩, ⟨[], by simp⟩⟩
    · simp only [Op.run, SaveHobby_new s hobby userId hin]
      exact ⟨⟨[], by simp⟩, ⟨[], by simp⟩, ⟨_, rfl⟩, ⟨_, rfl⟩, ⟨[], by simp⟩⟩
  | saveFriend userId friendId =>
    refine ⟨?_, by simp [Op.isRead], ?_⟩
    · simp only [Op.run, SaveFriend, execInsertFriend]
      exact ⟨⟨[], by simp⟩, ⟨[], by simp⟩, ⟨[], by simp⟩, ⟨[], by simp⟩, ⟨_, rfl⟩⟩
    · intro a b hab
      cases hab
      exact ⟨rfl, rfl⟩
  | authorisedUser _ => exact ⟨hid s, fun _ => rfl, by simp⟩
  | getUserId _ => exact ⟨hid s, fun _ => rfl, by simp⟩
  | getHobbyId _ => exact ⟨hid s, fun _ => rfl, by simp⟩
  | getUser _ => exact ⟨hid s, fun _ => rfl, by simp⟩
  | getUserProfile _ => exact ⟨hid s, fun _ => rfl, by simp⟩
  | queryUsersList => exact ⟨hid s, fun _ => rfl, by simp⟩
  | queryFriendsList _ => exact ⟨hid s, fun _ => rfl, by simp⟩

/-- C10, at the store `twoUsers`: `SaveFriend(1, 2)` appends the row `(1, 2)` and
no mirror row, and the read call `GetUser("bob")` leaves the store as it is. -/
theorem insert_only_witness :
    (Op.saveFriend 1 2).run twoUsers = { twoUsers with friends := [⟨1, 2⟩] } ∧
    (Op.getUser "bob").run twoUsers = twoUsers :=
  ⟨((insert_only twoUsers (.saveFriend 1 2)).2.2 1 2 rfl).2,
   (insert_only twoUsers (.getUser "bob")).2.1 rfl⟩

/-! ## Friends -/

theorem mem_friendIds (s : Store) (userId i : Int) :
    i ∈ friendIds s userId ↔
      ∃ f ∈ s.friends, (f.snd = userId ∧ f.fst = i) ∨ (f.fst = userId ∧ f.snd = i) := by
  simp only [friendIds, List.mem_dedup, List.mem_append, List.mem_map, List.mem_filter,
    decide_eq_true_eq]
  constructor
  · rintro (⟨f, ⟨hf, h1⟩, h2⟩ | ⟨f, ⟨hf, h1⟩, h2⟩)
    · exact ⟨f, hf, Or.inl ⟨h1, h2⟩⟩
    · exact ⟨f, hf, Or.inr ⟨h1, h2⟩⟩
  · rintro ⟨f, hf, (⟨h1, h2⟩ | ⟨h1, h2⟩)⟩
    · exact Or.inl ⟨f, ⟨hf, h1⟩, h2⟩
    · exact Or.inr ⟨f, ⟨hf, h1⟩, h2⟩

theorem nodup_friendIds (s : Store) (userId : Int) : (friendIds s userId).Nodup :=
  List.nodup_dedup _

theorem join_piece {α : Type} (l : List Int) (hl : l.Nodup) (x : Int) (u : α) :
    (l.filter (fun i => x = i)).map (fun _ => u) = if x ∈ l then [u] else [] := by
  induction l with
  | nil => simp
  | cons a tl ih =>
    have hnd := List.nodup_cons.mp hl
    by_cases hx : x = a
    · subst hx
      have := ih hnd.2
      simp only [hnd.1, if_false] at this
      simp [this]
    · have := ih hnd.2
      simp [hx, this]

theorem selectFriends_eq_filter (s : Store) (userId : Int) :
    selectFriends s userId = s.users.filter (fun u => u.user_id ∈ friendIds s userId) := by
  unfold selectFriends
  induction s.users with
  | nil => rfl
  | cons u tl ih =>
    rw [List.flatMap_cons, ih, join_piece _ (nodup_friendIds s userId)]
    by_cases hu : u.user_id ∈ friendIds s userId
    · simp [hu]
    · simp [hu]

theorem mem_selectFriends (s : Store) (userId : Int) (r : UserRow) :
    r ∈ selectFriends s userId ↔
      r ∈ s.users ∧ ∃ f ∈ s.friends,
        (f.fst = userId ∧ f.snd = r.user_id) ∨ (f.snd = userId ∧ f.fst = r.user_id) := by
  rw [selectFriends_eq_filter, List.mem_filter, decide_eq_true_eq, mem_friendIds]
  constructor
  · rintro ⟨hr, f, hf, h⟩
    exact ⟨hr, f, hf, h.symm⟩
  · rintro ⟨hr, f, hf, h⟩
    exact ⟨hr, f, hf, h.symm⟩

/-- C9: when `user_id` is a key of `users`, `QueryFriendsList(userId)` returns the
scanned rows of a duplicate-free list of users rows, and a users row is in that
list exactly when some friends row joins its id with `userId` in either
direction; with unique logins the returned users are themselves pairwise
distinct. -/
theorem QueryFriendsList_spec (s : Store) (userId : Int)
    (hkey : (s.users.map (fun r => r.user_id)).Nodup) :
    ∃ rows, QueryFriendsList s userId = rowsToUsers rows ∧ rows.Nodup ∧
      (∀ r, r ∈ rows ↔
        r ∈ s.users ∧ ∃ f ∈ s.friends,
          (f.fst = userId ∧ f.snd = r.user_id) ∨ (f.snd = userId ∧ f.fst = r.user_id)) ∧
      ((s.users.map (fun r => r.login)).Nodup → (QueryFriendsList s userId).Nodup) := by
  refine ⟨selectFriends s userId, rfl, ?_, mem_selectFriends s userId, ?_⟩
  · rw [selectFriends_eq_filter]
    exact (List.Nodup.of_map _ hkey).filter _
  · intro hlogin
    unfold QueryFriendsList rowsToUsers
    rw [selectFriends_eq_filter]
    refine List.Nodup.map_on ?_ ((List.Nodup.of_map _ hkey).filter _)
    intro x hx y hy hxy
    have hl : x.login = y.login := congrArg User.Login hxy
    exact List.inj_on_of_nodup_map hlogin (List.mem_filter.mp hx).1 (List.mem_filter.mp hy).1 hl

/-- C9, at the store `tangled`: user 1 is linked to user 2 by three friends rows
and to user 3 by two, and each of them is returned once; the row pointing at the
missing user 7 contributes nothing. -/
theorem QueryFriendsList_spec_witness :
    QueryFriendsList tangled 1
      = [{ Login := "bob", FirstName := "Bob", LastName := "B", BirthDate := "1999-12-31",
           Gender := "m", City := "Rome" },
         { Login := "carol", FirstName := "Carol", LastName := "C", BirthDate := "2001-02-03",
           Gender := "f", City := "Oslo" }] ∧
    ∃ rows, QueryFriendsList tangled 1 = rowsToUsers rows ∧ rows.Nodup ∧
      (∀ r, r ∈ rows ↔
        r ∈ tangled.users ∧ ∃ f ∈ tangled.friends,
          (f.fst = 1 ∧ f.snd = r.user_id) ∨ (f.snd = 1 ∧ f.fst = r.user_id)) ∧
      ((tangled.users.map (fun r => r.login)).Nodup → (QueryFriendsList tangled 1).Nodup) :=
  ⟨by decide, QueryFriendsList_spec tangled 1 (by decide)⟩

/-- C4: for two users rows `ua` and `ub` of the store, after `SaveFriend(ua.user_id,
ub.user_id)` returned no error, `QueryFriendsList(ub.user_id)` contains the user
of `ua` and `QueryFriendsList(ua.user_id)` contains the user of `ub`; and when the
store held only these two users, with different ids, and no friends row, the two
lists are exactly `[ub]` and `[ua]`. -/
theorem SaveFriend_symmetric (s s' : Store) (ua ub : UserRow)
    (ha : ua ∈ s.users) (hb : ub ∈ s.users)
    (hsave : SaveFriend s ua.user_id ub.user_id = (s', none)) :
    scanUser ua ∈ QueryFriendsList s' ub.user_id ∧
    scanUser ub ∈ QueryFriendsList s' ua.user_id ∧
    (s.users = [ua, ub] → ua.user_id ≠ ub.user_id → s.friends = [] →
      QueryFriendsList s' ua.user_id = [scanUser ub] ∧
      QueryFriendsList s' ub.user_id = [scanUser ua]) := by
  have hs' : s' = { s with friends := s.friends ++ [⟨ua.user_id, ub.user_id⟩] } := by
    simp only [SaveFriend, execInsertFriend, Prod.mk.injEq, and_true] at hsave
    exact hsave.symm
  subst hs'
  refine ⟨?_, ?_, ?_⟩
  · refine List.mem_map_of_mem _ ((mem_selectFriends _ _ _).mpr ⟨ha, ⟨ua.user_id, ub.user_id⟩, ?_, ?_⟩)
    · simp
    · exact Or.inr ⟨rfl, rfl⟩
  · refine List.mem_map_of_mem _ ((mem_selectFriends _ _ _).mpr ⟨hb, ⟨ua.user_id, ub.user_id⟩, ?_, ?_⟩)
    · simp
    · exact Or.inl ⟨rfl, rfl⟩
  · intro husers hne hfr
    have hne' : ub.user_id ≠ ua.user_id := fun e => hne e.symm
    simp [QueryFriendsList, rowsToUsers, selectFriends_eq_filter, mem_friendIds, husers, hfr,
      List.filter_cons, hne, hne']

/-- C4, on the spec's example: alice and bob sign up on the empty store, then
`SaveFriend(alice.id, bob.id)`; each of them lists exactly the other. -/
theorem SaveFriend_symmetric_witness :
    aliceAndBob.users = [⟨1, "alice", "Alice", "", "", "", ""⟩, ⟨2, "bob", "Bob", "", "", "", ""⟩] ∧
    aliceAndBob.friends = [] ∧
    QueryFriendsList (SaveFriend aliceAndBob 1 2).1 1 = [{ bob with Token := "" }] ∧
    QueryFriendsList (SaveFriend aliceAndBob 1 2).1 2 = [{ alice with Token := "" }] :=
  ⟨by decide, by decide,
   (SaveFriend_symmetric aliceAndBob (SaveFriend aliceAndBob 1 2).1
      ⟨1, "alice", "Alice", "", "", "", ""⟩ ⟨2, "bob", "Bob", "", "", "", ""⟩
      (by decide) (by decide) rfl).2.2 (by decide) (by decide) (by decide)⟩

end Matester
